import Mathlib

/-!
Shallow embedding of the Tic-Tac-Toe game core (`script.js`): the game state
machine (board, turn, status, scores) and the opponent policy (easy / medium /
hard difficulty), together with theorems settling the specification claims.

Conventions of the embedding:
* a board cell is `Option Player` (`none` is the empty string `''`);
* the board is a `List Cell` of length 9 (indices 0-8, row-major);
* JavaScript `board[i]` is `List.get? i`, so an out-of-range read is `none`
  (JS `undefined`), distinct from `some none` (an in-range empty cell);
* `Math.random()`-driven choices take explicit parameters: a `Bool` for the
  medium-difficulty 70% coin and a `Nat` selecting among the available moves;
* the silent early `return` of `handleCellClick` on an invalid click is
  `Except.error MoveError.invalidMove`, the spec's `InvalidMove` result.
-/

inductive Player : Type
  | X
  | O
deriving DecidableEq, Repr

/-- A board cell: `none` models the empty string `''`. -/
abbrev Cell := Option Player

/-- `currentPlayer === 'X' ? 'O' : 'X'` — the turn flip in `makeMove`. -/
def otherPlayer : Player → Player
  | .X => .O
  | .O => .X

inductive GameMode : Type
  | pvp
  | ai
deriving DecidableEq, Repr

inductive Difficulty : Type
  | easy
  | medium
  | hard
deriving DecidableEq, Repr

/-- The `scores` object: wins for X, wins for O, and draws. -/
structure Scores where
  X : Nat
  O : Nat
  draw : Nat
deriving DecidableEq, Repr

/-- The mutable fields of the `TicTacToe` class that the game core touches. -/
structure GameState where
  board : List Cell
  currentPlayer : Player
  gameActive : Bool
  gameMode : GameMode
  aiDifficulty : Difficulty
  scores : Scores
deriving DecidableEq, Repr

/-- `this.winningCombinations`: 3 rows, then 3 columns, then 2 diagonals. -/
def winningCombinations : List (Nat × Nat × Nat) :=
  [(0, 1, 2), (3, 4, 5), (6, 7, 8),
   (0, 3, 6), (1, 4, 7), (2, 5, 8),
   (0, 4, 8), (2, 4, 6)]

/-- Result of `checkGameEnd`: `{type:'win', player, combination}` or `{type:'draw'}`. -/
inductive GameResult : Type
  | win (player : Player) (combination : Nat × Nat × Nat)
  | draw
deriving DecidableEq, Repr

/-- One iteration of the win-scan loop in `checkGameEnd`:
`board[a] && board[a] === board[b] && board[a] === board[c]`. -/
def lineWin (b : List Cell) (combo : Nat × Nat × Nat) : Option GameResult :=
  match b[combo.1]? with
  | some (some p) =>
      if b[combo.2.1]? = some (some p) ∧ b[combo.2.2]? = some (some p) then
        some (.win p combo)
      else none
  | _ => none

/-- `checkGameEnd()`: first winning line in `winningCombinations` order, else
draw when every cell is non-empty, else `null`. -/
def checkGameEnd (b : List Cell) : Option GameResult :=
  match winningCombinations.findSome? (lineWin b) with
  | some r => some r
  | none => if b.all (fun c => c ≠ none) then some .draw else none

/-- `updateScore(winner)`: bump the counter named by the winner (`none` = `'draw'`). -/
def updateScore (sc : Scores) (winner : Option Player) : Scores :=
  match winner with
  | none => { sc with draw := sc.draw + 1 }
  | some .X => { sc with X := sc.X + 1 }
  | some .O => { sc with O := sc.O + 1 }

/-- `endGame(result)`: deactivate the game and record the outcome in the tally. -/
def endGame (s : GameState) (result : GameResult) : GameState :=
  match result with
  | .win p _ => { s with gameActive := false, scores := updateScore s.scores (some p) }
  | .draw => { s with gameActive := false, scores := updateScore s.scores none }

/-- `makeMove(index, player)`: write the mark, then either end the game or flip
the turn.  (No validation here — the guard lives in `handleCellClick`.) -/
def makeMove (s : GameState) (index : Nat) (player : Player) : GameState :=
  match checkGameEnd (s.board.set index (some player)) with
  | some result => endGame { s with board := s.board.set index (some player) } result
  | none =>
      { s with
        board := s.board.set index (some player)
        currentPlayer := otherPlayer s.currentPlayer }

inductive MoveError : Type
  | invalidMove
deriving DecidableEq, Repr

/-- `handleCellClick`: reject when the game is inactive or `board[index] !== ''`
(which also covers an out-of-range index, where `board[index]` is `undefined`);
otherwise play `currentPlayer` at `index`. -/
def handleCellClick (s : GameState) (index : Nat) : Except MoveError GameState :=
  if ¬ s.gameActive ∨ s.board[index]? ≠ some (none : Cell) then
    .error .invalidMove
  else
    .ok (makeMove s index s.currentPlayer)

/-- The state observable after a click: unchanged when the click was rejected. -/
def clickStep (s : GameState) (index : Nat) : GameState :=
  match handleCellClick s index with
  | .ok s' => s'
  | .error _ => s

/-- `resetGame()`: empty board, `'X'` to move, game active; scores untouched. -/
def resetGame (s : GameState) : GameState :=
  { s with board := List.replicate 9 (none : Cell), currentPlayer := .X, gameActive := true }

/-- The state built by the constructor (scores come from `localStorage`). -/
def initialState (mode : GameMode) (diff : Difficulty) (sc : Scores) : GameState :=
  { board := List.replicate 9 (none : Cell)
    currentPlayer := .X
    gameActive := true
    gameMode := mode
    aiDifficulty := diff
    scores := sc }

/-- `getRandomMove`'s `availableMoves`: indices of the empty cells. -/
def availableMoves (b : List Cell) : List Nat :=
  (b.enum.filterMap fun p => if p.2 = (none : Cell) then some p.1 else none)

/-- `getRandomMove()`: a random available index, `-1` when none.  The parameter
`r` stands for the `Math.floor(Math.random() * length)` draw. -/
def getRandomMove (b : List Cell) (r : Nat) : Int :=
  let avail := availableMoves b
  if avail.length > 0 then ((avail.getD (r % avail.length) 0 : Nat) : Int) else -1

/-- One iteration of the win-or-block loops in `getStrategicMove`: complete a
line holding two `m`-marks and one empty cell, trying the gap at the third,
then second, then first position. -/
def completeLine (b : List Cell) (m : Player) (combo : Nat × Nat × Nat) : Option Nat :=
  if b[combo.1]? = some (some m) ∧ b[combo.2.1]? = some (some m) ∧
      b[combo.2.2]? = some (none : Cell) then
    some combo.2.2
  else if b[combo.1]? = some (some m) ∧ b[combo.2.2]? = some (some m) ∧
      b[combo.2.1]? = some (none : Cell) then
    some combo.2.1
  else if b[combo.2.1]? = some (some m) ∧ b[combo.2.2]? = some (some m) ∧
      b[combo.1]? = some (none : Cell) then
    some combo.1
  else none

/-- `getStrategicMove()`: win, block, center, first free corner, first free
side, else fall back to `getRandomMove`. -/
def getStrategicMove (b : List Cell) (r : Nat) : Int :=
  match winningCombinations.findSome? (completeLine b .O) with
  | some i => (i : Int)
  | none =>
    match winningCombinations.findSome? (completeLine b .X) with
    | some i => (i : Int)
    | none =>
      if b[4]? = some (none : Cell) then 4
      else
        match ([0, 2, 6, 8] : List Nat).find? (fun i => b[i]? = some (none : Cell)) with
        | some i => (i : Int)
        | none =>
          match ([1, 3, 5, 7] : List Nat).find? (fun i => b[i]? = some (none : Cell)) with
          | some i => (i : Int)
          | none => getRandomMove b r

/-- `getMediumMove()`: `strat` is the `Math.random() < 0.7` outcome. -/
def getMediumMove (b : List Cell) (strat : Bool) (r : Nat) : Int :=
  if strat then getStrategicMove b r else getRandomMove b r

/-- `getHardMove()`. -/
def getHardMove (b : List Cell) (r : Nat) : Int :=
  getStrategicMove b r

/-- The `switch (this.aiDifficulty)` of `makeAIMove`. -/
def aiMoveChoice (s : GameState) (strat : Bool) (r : Nat) : Int :=
  match s.aiDifficulty with
  | .easy => getRandomMove s.board r
  | .medium => getMediumMove s.board strat r
  | .hard => getHardMove s.board r

/-- `makeAIMove()`: bail out when the game is inactive, otherwise play the
chosen move as `'O'` unless the choice is `-1`. -/
def makeAIMove (s : GameState) (strat : Bool) (r : Nat) : GameState :=
  if ¬ s.gameActive then s
  else
    let move := aiMoveChoice s strat r
    if move ≠ -1 then makeMove s move.toNat .O else s

example :
    checkGameEnd [some .X, some .X, some .X, none, some .O, none, none, none, some .O] =
      some (.win .X (0, 1, 2)) := by decide

example :
    getStrategicMove [some .X, some .X, none, none, none, none, none, none, none] 0 = 2 := by
  decide

example :
    getStrategicMove [some .O, some .O, none, none, none, none, none, none, none] 5 = 2 := by
  decide

example :
    getStrategicMove [some .X, none, none, none, none, none, none, none, none] 0 = 4 := by
  decide

/-! ## Basic facts about the click path -/

/-- Inversion of an accepted click: the game was active, the target cell was
in range and empty, and the new state is `makeMove` at the current player. -/
theorem handleCellClick_ok {s s' : GameState} {i : Nat}
    (h : handleCellClick s i = .ok s') :
    s.gameActive = true ∧ s.board[i]? = some (none : Cell) ∧
      s' = makeMove s i s.currentPlayer := by
  by_cases hc : (¬ s.gameActive = true ∨ s.board[i]? ≠ some (none : Cell))
  · simp only [handleCellClick] at h
    rw [if_pos hc] at h
    cases h
  · push_neg at hc
    obtain ⟨hg, hb⟩ := hc
    simp only [handleCellClick] at h
    rw [if_neg] at h
    · refine ⟨hg, hb, ?_⟩
      injection h with h
      exact h.symm
    · push_neg
      exact ⟨hg, hb⟩

/-- A click on an inactive game never changes the state. -/
theorem clickStep_inactive (t : GameState) (j : Nat) (ht : t.gameActive = false) :
    clickStep t j = t := by
  have h1 : handleCellClick t j = .error .invalidMove := by
    simp only [handleCellClick]
    rw [if_pos]
    left
    simp [ht]
  simp [clickStep, h1]

/-- **C7**: `resetGame` restores the initial in-game state — all nine cells
empty, `'X'` to move, game in progress — and leaves all three score counters
(and the mode/difficulty configuration) unchanged, whatever state the game was
in before. -/
theorem resetGame_restores_initial (s : GameState) :
    (resetGame s).board = List.replicate 9 (none : Cell) ∧
    (resetGame s).currentPlayer = .X ∧
    (resetGame s).gameActive = true ∧
    checkGameEnd (resetGame s).board = none ∧
    (resetGame s).scores = s.scores ∧
    (resetGame s).gameMode = s.gameMode ∧
    (resetGame s).aiDifficulty = s.aiDifficulty :=
  ⟨rfl, rfl, rfl, rfl, rfl, rfl, rfl⟩

/-- **C1**: a click with an out-of-range index, on an inactive (terminal) game,
or on an occupied cell is rejected with `InvalidMove`, and the whole state
(board, turn, status, scores) is left unchanged.  (On this path the mark played
is always `currentPlayer`, so an out-of-turn mark cannot arise.) -/
theorem invalid_click_rejected (s : GameState) (i : Nat)
    (hlen : s.board.length = 9)
    (h : 9 ≤ i ∨ s.gameActive = false ∨ s.board[i]? ≠ some (none : Cell)) :
    handleCellClick s i = .error .invalidMove ∧ clickStep s i = s := by
  have hc : (¬ s.gameActive = true ∨ s.board[i]? ≠ some (none : Cell)) := by
    rcases h with h | h | h
    · right
      have hn : s.board[i]? = none := List.getElem?_eq_none (by omega)
      rw [hn]
      simp
    · left
      simp [h]
    · right
      exact h
  have h1 : handleCellClick s i = .error .invalidMove := by
    simp only [handleCellClick]
    rw [if_pos hc]
  refine ⟨h1, ?_⟩
  simp [clickStep, h1]

/-- Witness for C1 at a concrete input (index 9 on a fresh game). -/
theorem invalid_click_rejected_witness :
    handleCellClick (initialState .pvp .hard ⟨0, 0, 0⟩) 9 = .error .invalidMove ∧
    clickStep (initialState .pvp .hard ⟨0, 0, 0⟩) 9 = initialState .pvp .hard ⟨0, 0, 0⟩ :=
  invalid_click_rejected _ 9 (by decide) (Or.inl (by omega))

/-- **C5**: an accepted move updates the score tally exactly on the transition
to a terminal state, bumping only the counter matching the outcome; a move that
leaves the game in progress leaves all three counters unchanged, and once the
game is terminal no further click changes anything (so the tally is bumped at
most once per game). -/
theorem score_bump_once_on_terminal (s s' : GameState) (i : Nat)
    (hok : handleCellClick s i = .ok s') :
    (∀ l, checkGameEnd s'.board = some (.win .X l) →
        s'.gameActive = false ∧ s'.scores = { s.scores with X := s.scores.X + 1 }) ∧
    (∀ l, checkGameEnd s'.board = some (.win .O l) →
        s'.gameActive = false ∧ s'.scores = { s.scores with O := s.scores.O + 1 }) ∧
    (checkGameEnd s'.board = some .draw →
        s'.gameActive = false ∧ s'.scores = { s.scores with draw := s.scores.draw + 1 }) ∧
    (checkGameEnd s'.board = none → s'.gameActive = true ∧ s'.scores = s.scores) ∧
    (∀ t j, t.gameActive = false → clickStep t j = t) := by
  obtain ⟨hg, _, rfl⟩ := handleCellClick_ok hok
  rcases hres : checkGameEnd (s.board.set i (some s.currentPlayer)) with _ | res
  · have hmm : makeMove s i s.currentPlayer =
        { s with
          board := s.board.set i (some s.currentPlayer)
          currentPlayer := otherPlayer s.currentPlayer } := by
      unfold makeMove
      rw [hres]
    rw [hmm]
    refine ⟨?_, ?_, ?_, ?_, clickStep_inactive⟩
    · intro l hl
      exact Option.noConfusion (hres.symm.trans hl)
    · intro l hl
      exact Option.noConfusion (hres.symm.trans hl)
    · intro hl
      exact Option.noConfusion (hres.symm.trans hl)
    · intro _
      exact ⟨hg, rfl⟩
  · have hmm : makeMove s i s.currentPlayer =
        endGame { s with board := s.board.set i (some s.currentPlayer) } res := by
      unfold makeMove
      rw [hres]
    rw [hmm]
    rcases res with ⟨p, l0⟩ | _
    · rcases p with _ | _
      · refine ⟨?_, ?_, ?_, ?_, clickStep_inactive⟩
        · intro l _
          exact ⟨rfl, rfl⟩
        · intro l hl
          have hl' := hres.symm.trans hl
          simp at hl'
        · intro hl
          have hl' := hres.symm.trans hl
          simp at hl'
        · intro hl
          exact Option.noConfusion (hres.symm.trans hl)
      · refine ⟨?_, ?_, ?_, ?_, clickStep_inactive⟩
        · intro l hl
          have hl' := hres.symm.trans hl
          simp at hl'
        · intro l _
          exact ⟨rfl, rfl⟩
        · intro hl
          have hl' := hres.symm.trans hl
          simp at hl'
        · intro hl
          exact Option.noConfusion (hres.symm.trans hl)
    · refine ⟨?_, ?_, ?_, ?_, clickStep_inactive⟩
      · intro l hl
        have hl' := hres.symm.trans hl
        simp at hl'
      · intro l hl
        have hl' := hres.symm.trans hl
        simp at hl'
      · intro _
        exact ⟨rfl, rfl⟩
      · intro hl
        exact Option.noConfusion (hres.symm.trans hl)

/-- Witness for C5 at a concrete input: the first move of a fresh game, which
leaves the game in progress and the tally untouched. -/
theorem score_bump_once_on_terminal_witness :
    (∀ l, checkGameEnd (makeMove (initialState .pvp .hard ⟨3, 4, 5⟩) 0 .X).board =
          some (.win .X l) →
        (makeMove (initialState .pvp .hard ⟨3, 4, 5⟩) 0 .X).gameActive = false ∧
        (makeMove (initialState .pvp .hard ⟨3, 4, 5⟩) 0 .X).scores = ⟨4, 4, 5⟩) ∧
    (∀ l, checkGameEnd (makeMove (initialState .pvp .hard ⟨3, 4, 5⟩) 0 .X).board =
          some (.win .O l) →
        (makeMove (initialState .pvp .hard ⟨3, 4, 5⟩) 0 .X).gameActive = false ∧
        (makeMove (initialState .pvp .hard ⟨3, 4, 5⟩) 0 .X).scores = ⟨3, 5, 5⟩) ∧
    (checkGameEnd (makeMove (initialState .pvp .hard ⟨3, 4, 5⟩) 0 .X).board = some .draw →
        (makeMove (initialState .pvp .hard ⟨3, 4, 5⟩) 0 .X).gameActive = false ∧
        (makeMove (initialState .pvp .hard ⟨3, 4, 5⟩) 0 .X).scores = ⟨3, 4, 6⟩) ∧
    (checkGameEnd (makeMove (initialState .pvp .hard ⟨3, 4, 5⟩) 0 .X).board = none →
        (makeMove (initialState .pvp .hard ⟨3, 4, 5⟩) 0 .X).gameActive = true ∧
        (makeMove (initialState .pvp .hard ⟨3, 4, 5⟩) 0 .X).scores = ⟨3, 4, 5⟩) ∧
    (∀ t j, t.gameActive = false → clickStep t j = t) :=
  score_bump_once_on_terminal (initialState .pvp .hard ⟨3, 4, 5⟩)
    (makeMove (initialState .pvp .hard ⟨3, 4, 5⟩) 0 .X) 0 rfl

/-! ## C3: termination evaluation -/

/-- The spec's win test for one line: all three cells filled and equal. -/
def specLineWins (b : List Cell) (t : Nat × Nat × Nat) : Bool :=
  match b[t.1]? with
  | some (some p) =>
      decide (b[t.2.1]? = some (some p)) && decide (b[t.2.2]? = some (some p))
  | _ => false

/-- The outcome reported for a winning line: the common mark and the line
itself (the mark defaults to `X` on a non-winning line, where it is unused). -/
def lineWinner (b : List Cell) (t : Nat × Nat × Nat) : GameResult :=
  match b[t.1]? with
  | some (some p) => .win p t
  | _ => .win .X t

/-- Termination evaluation as the spec words it: the first line of
`winningCombinations` (rows, then columns, then diagonals) whose three cells
are filled and equal decides a win; else a full board is a draw; else the game
is still in progress. -/
def checkGameEndSpec (b : List Cell) : Option GameResult :=
  match winningCombinations.find? (specLineWins b) with
  | some t => some (lineWinner b t)
  | none => if b.all (fun c => c ≠ none) then some .draw else none

/-- The win-scan step agrees with the spec's per-line test. -/
theorem lineWin_eq_spec (b : List Cell) (t : Nat × Nat × Nat) :
    lineWin b t = if specLineWins b t then some (lineWinner b t) else none := by
  rcases t with ⟨a, bb, c⟩
  simp only [lineWin, specLineWins, lineWinner]
  rcases h : b[a]? with _ | c0
  · rfl
  · rcases c0 with _ | p
    · rfl
    · by_cases h1 : b[bb]? = some (some p) ∧ b[c]? = some (some p)
      · simp [h1.1, h1.2]
      · simp [h1]

/-- A first-some scan with a guarded function is a `find?` followed by `map`. -/
theorem findSome?_guard_eq_find? {α β : Type} (p : α → Bool) (g : α → β)
    (f : α → Option β) (hf : ∀ x, f x = if p x then some (g x) else none) :
    ∀ l : List α, l.findSome? f = (l.find? p).map g := by
  intro l
  induction l with
  | nil => rfl
  | cons x xs ih =>
    rw [List.findSome?_cons, List.find?_cons, hf x]
    by_cases hp : p x = true
    · simp [hp]
    · have hp' : p x = false := by
        cases hx : p x
        · rfl
        · exact absurd hx hp
      simp [hp', ih]

/-- **C3**: `checkGameEnd` scans the 8 winning lines in the fixed order (rows,
then columns, then diagonals) and reports the win of the first line whose
three cells are filled and equal, with that line's mark; with no winning line
it reports a draw exactly when no cell is empty, and otherwise reports nothing
(game in progress). -/
theorem checkGameEnd_eq_spec (b : List Cell) :
    checkGameEnd b = checkGameEndSpec b ∧
    winningCombinations =
      [(0, 1, 2), (3, 4, 5), (6, 7, 8),
       (0, 3, 6), (1, 4, 7), (2, 5, 8),
       (0, 4, 8), (2, 4, 6)] := by
  refine ⟨?_, rfl⟩
  unfold checkGameEnd checkGameEndSpec
  rw [findSome?_guard_eq_find? (specLineWins b) (lineWinner b) (lineWin b)
    (lineWin_eq_spec b)]
  rcases h : winningCombinations.find? (specLineWins b) with _ | t
  · simp
  · simp

/-! ## C2 / C9 / C10: the strategic opponent policy -/

/-- The spec's "two-plus-gap" scan for one line: two `m`-marks and an empty
gap, trying the sub-patterns in the order gap=third, gap=second, gap=first. -/
def twoInLineGap (b : List Cell) (m : Player) (t : Nat × Nat × Nat) : Option Nat :=
  [(t.1, t.2.1, t.2.2), (t.1, t.2.2, t.2.1), (t.2.1, t.2.2, t.1)].findSome?
    fun q =>
      if b[q.1]? = some (some m) ∧ b[q.2.1]? = some (some m) ∧
          b[q.2.2]? = some (none : Cell) then
        some q.2.2
      else none

/-- The spec's priority-ordered strategic evaluation (§4.2, priorities 1-5):
win, block, center, first free corner in 0,2,6,8, first free edge in
1,3,5,7; `none` only on a full board. -/
def strategicMoveSpec (b : List Cell) : Option Nat :=
  match winningCombinations.findSome? (twoInLineGap b .O) with
  | some i => some i
  | none =>
    match winningCombinations.findSome? (twoInLineGap b .X) with
    | some i => some i
    | none =>
      if b[4]? = some (none : Cell) then some 4
      else
        match ([0, 2, 6, 8] : List Nat).find? (fun i => b[i]? = some (none : Cell)) with
        | some i => some i
        | none => ([1, 3, 5, 7] : List Nat).find? (fun i => b[i]? = some (none : Cell))

/-- The code's win-or-block line scan agrees with the spec's sub-pattern
order. -/
theorem completeLine_eq_gap (b : List Cell) (m : Player) (t : Nat × Nat × Nat) :
    completeLine b m t = twoInLineGap b m t := by
  by_cases h1 : b[t.1]? = some (some m) ∧ b[t.2.1]? = some (some m) ∧
      b[t.2.2]? = some (none : Cell)
  · simp [completeLine, twoInLineGap, List.findSome?_cons, h1]
  · by_cases h2 : b[t.1]? = some (some m) ∧ b[t.2.2]? = some (some m) ∧
        b[t.2.1]? = some (none : Cell)
    · simp [completeLine, twoInLineGap, List.findSome?_cons, h1, h2]
    · by_cases h3 : b[t.2.1]? = some (some m) ∧ b[t.2.2]? = some (some m) ∧
          b[t.1]? = some (none : Cell)
      · simp [completeLine, twoInLineGap, List.findSome?_cons, h1, h2, h3]
      · simp [completeLine, twoInLineGap, List.findSome?_cons, h1, h2, h3]

/-- The cell chosen by the two-plus-gap scan is empty. -/
theorem twoInLineGap_empty {b : List Cell} {m : Player} {t : Nat × Nat × Nat} {i : Nat}
    (h : twoInLineGap b m t = some i) : b[i]? = some (none : Cell) := by
  obtain ⟨q, _, hfq⟩ := List.exists_of_findSome?_eq_some h
  by_cases hc : b[q.1]? = some (some m) ∧ b[q.2.1]? = some (some m) ∧
      b[q.2.2]? = some (none : Cell)
  · rw [if_pos hc] at hfq
    injection hfq with hfq
    rw [← hfq]
    exact hc.2.2
  · rw [if_neg hc] at hfq
    cases hfq

/-- Master lemma: on a 9-cell board with an empty cell, `getStrategicMove`
returns exactly the spec's priority-ordered choice, which is an empty cell. -/
theorem strategic_correct (b : List Cell) (r : Nat) (hlen : b.length = 9)
    (i0 : Nat) (h0 : b[i0]? = some (none : Cell)) :
    ∃ j, strategicMoveSpec b = some j ∧ b[j]? = some (none : Cell) ∧
      getStrategicMove b r = (j : Int) := by
  have hcong : ∀ m : Player,
      winningCombinations.findSome? (completeLine b m) =
        winningCombinations.findSome? (twoInLineGap b m) := by
    intro m
    exact congrArg (fun f => List.findSome? f winningCombinations)
      (funext (completeLine_eq_gap b m))
  rcases hO : winningCombinations.findSome? (twoInLineGap b .O) with _ | j
  · rcases hX : winningCombinations.findSome? (twoInLineGap b .X) with _ | j
    · by_cases h4 : b[4]? = some (none : Cell)
      · refine ⟨4, ?_, h4, ?_⟩
        · simp [strategicMoveSpec, hO, hX, h4]
        · simp [getStrategicMove, hcong, hO, hX, h4]
      · rcases hc : ([0, 2, 6, 8] : List Nat).find? (fun i => decide (b[i]? = some (none : Cell)))
          with _ | j
        · rcases he : ([1, 3, 5, 7] : List Nat).find? (fun i => decide (b[i]? = some (none : Cell)))
            with _ | j
          · exfalso
            have hcn := List.find?_eq_none.mp hc
            have hen := List.find?_eq_none.mp he
            obtain ⟨hlt, -⟩ := List.getElem?_eq_some_iff.mp h0
            rw [hlen] at hlt
            interval_cases i0
            · exact hcn 0 (by simp) (decide_eq_true h0)
            · exact hen 1 (by simp) (decide_eq_true h0)
            · exact hcn 2 (by simp) (decide_eq_true h0)
            · exact hen 3 (by simp) (decide_eq_true h0)
            · exact h4 h0
            · exact hen 5 (by simp) (decide_eq_true h0)
            · exact hcn 6 (by simp) (decide_eq_true h0)
            · exact hen 7 (by simp) (decide_eq_true h0)
            · exact hcn 8 (by simp) (decide_eq_true h0)
          · have hj := List.find?_some he
            simp only [decide_eq_true_eq] at hj
            refine ⟨j, ?_, hj, ?_⟩
            · simp [strategicMoveSpec, hO, hX, h4, hc, he]
            · simp [getStrategicMove, hcong, hO, hX, h4, hc, he]
        · have hj := List.find?_some hc
          simp only [decide_eq_true_eq] at hj
          refine ⟨j, ?_, hj, ?_⟩
          · simp [strategicMoveSpec, hO, hX, h4, hc]
          · simp [getStrategicMove, hcong, hO, hX, h4, hc]
    · obtain ⟨t, -, ht⟩ := List.exists_of_findSome?_eq_some hX
      refine ⟨j, ?_, twoInLineGap_empty ht, ?_⟩
      · simp [strategicMoveSpec, hO, hX]
      · simp [getStrategicMove, hcong, hO, hX]
  · obtain ⟨t, -, ht⟩ := List.exists_of_findSome?_eq_some hO
    refine ⟨j, ?_, twoInLineGap_empty ht, ?_⟩
    · simp [strategicMoveSpec, hO]
    · simp [getStrategicMove, hcong, hO]

/-! ## Full-board behaviour of the opponent policy -/

/-- On a board with no empty cell there are no available moves. -/
theorem availableMoves_eq_nil (b : List Cell)
    (h : ∀ k : Nat, b[k]? ≠ some (none : Cell)) : availableMoves b = [] := by
  unfold availableMoves
  rw [List.filterMap_eq_nil_iff, List.forall_mem_enum]
  intro i hi
  have hbi : b[i]? = some b[i] := List.getElem?_eq_getElem hi
  have hne : b[i] ≠ (none : Cell) := by
    intro hn
    exact h i (by rw [hbi, hn])
  show (if b[i] = (none : Cell) then some i else none) = none
  rw [if_neg hne]

/-- `getRandomMove` on a full board is `-1`, whatever the random draw. -/
theorem getRandomMove_full (b : List Cell) (r : Nat)
    (h : ∀ k : Nat, b[k]? ≠ some (none : Cell)) : getRandomMove b r = -1 := by
  have ha := availableMoves_eq_nil b h
  simp [getRandomMove, ha]

/-- No line can be completed on a full board. -/
theorem completeLine_eq_none_of_full (b : List Cell) (m : Player) (t : Nat × Nat × Nat)
    (h : ∀ k : Nat, b[k]? ≠ some (none : Cell)) : completeLine b m t = none := by
  unfold completeLine
  rw [if_neg fun hc => h t.2.2 hc.2.2, if_neg fun hc => h t.2.1 hc.2.2,
    if_neg fun hc => h t.1 hc.2.2]

/-- `getStrategicMove` on a full board is `-1`, whatever the random draw. -/
theorem strategic_full (b : List Cell) (r : Nat)
    (h : ∀ k : Nat, b[k]? ≠ some (none : Cell)) : getStrategicMove b r = -1 := by
  have hfsO : winningCombinations.findSome? (completeLine b .O) = none :=
    List.findSome?_eq_none_iff.mpr fun t _ => completeLine_eq_none_of_full b .O t h
  have hfsX : winningCombinations.findSome? (completeLine b .X) = none :=
    List.findSome?_eq_none_iff.mpr fun t _ => completeLine_eq_none_of_full b .X t h
  have hfc : ([0, 2, 6, 8] : List Nat).find?
      (fun i => decide (b[i]? = some (none : Cell))) = none :=
    List.find?_eq_none.mpr fun x _ hx => h x (of_decide_eq_true hx)
  have hfe : ([1, 3, 5, 7] : List Nat).find?
      (fun i => decide (b[i]? = some (none : Cell))) = none :=
    List.find?_eq_none.mpr fun x _ hx => h x (of_decide_eq_true hx)
  have hr := getRandomMove_full b r h
  simp [getStrategicMove, hfsO, hfsX, h 4, hfc, hfe, hr]

/-- **C8**: on a full board every difficulty's move choice is the
"no move available" result `-1`, and `makeAIMove` then applies nothing,
leaving the whole state unchanged. -/
theorem policy_full_board (s : GameState) (strat : Bool) (r : Nat)
    (hfull : s.board.all (fun c => c ≠ none) = true) :
    aiMoveChoice s strat r = -1 ∧ makeAIMove s strat r = s := by
  have h : ∀ k : Nat, s.board[k]? ≠ some (none : Cell) := by
    intro k hk
    have hmem : (none : Cell) ∈ s.board := List.getElem?_mem hk
    have hx := List.all_eq_true.mp hfull _ hmem
    simp at hx
  have hchoice : aiMoveChoice s strat r = -1 := by
    rcases hd : s.aiDifficulty
    all_goals simp [aiMoveChoice, hd, getMediumMove, getHardMove,
      getRandomMove_full s.board r h, strategic_full s.board r h]
  refine ⟨hchoice, ?_⟩
  by_cases hg : s.gameActive = true
  · simp [makeAIMove, hg, hchoice]
  · simp [makeAIMove, hg]

/-- Witness for C8 at a concrete full board (easy difficulty, active game). -/
theorem policy_full_board_witness :
    aiMoveChoice ⟨[some .X, some .O, some .X, some .X, some .O, some .O,
        some .O, some .X, some .X], .X, true, .ai, .easy, ⟨0, 0, 0⟩⟩ true 3 = -1 ∧
    makeAIMove ⟨[some .X, some .O, some .X, some .X, some .O, some .O,
        some .O, some .X, some .X], .X, true, .ai, .easy, ⟨0, 0, 0⟩⟩ true 3 =
      ⟨[some .X, some .O, some .X, some .X, some .O, some .O,
        some .O, some .X, some .X], .X, true, .ai, .easy, ⟨0, 0, 0⟩⟩ :=
  policy_full_board _ true 3 (by decide)

/-- **C2**: on a 9-cell board with an empty cell, the Hard-difficulty
selection (`getStrategicMove`, playing `O`) returns exactly the move of the
spec's priority order — win, block, center, first free corner in 0,2,6,8,
first free edge in 1,3,5,7, with lines scanned in the fixed
`winningCombinations` order and sub-patterns in the order gap=third,
gap=second, gap=first (`strategicMoveSpec`). -/
theorem hard_priority_order (b : List Cell) (r : Nat) (hlen : b.length = 9)
    (i0 : Nat) (h0 : b[i0]? = some (none : Cell)) :
    ∃ j, strategicMoveSpec b = some j ∧ getStrategicMove b r = (j : Int) := by
  obtain ⟨j, h1, -, h2⟩ := strategic_correct b r hlen i0 h0
  exact ⟨j, h1, h2⟩

/-- Witness for C2: with two `O`s on the top row the policy completes the
row at cell 2. -/
theorem hard_priority_order_witness :
    ∃ j, strategicMoveSpec
        [some .O, some .O, none, none, none, none, none, none, none] = some j ∧
      getStrategicMove
        [some .O, some .O, none, none, none, none, none, none, none] 7 = (j : Int) :=
  hard_priority_order _ 7 (by decide) 2 (by decide)

/-- **C9**: the Hard-difficulty choice is deterministic — it does not depend
on the random draw — and on any board with an empty cell it agrees with the
spec's strategic priority order. -/
theorem hard_deterministic (b : List Cell) (r₁ r₂ : Nat) (hlen : b.length = 9) :
    getHardMove b r₁ = getHardMove b r₂ ∧
    (∀ i0 : Nat, b[i0]? = some (none : Cell) →
      ∃ j, strategicMoveSpec b = some j ∧ getHardMove b r₁ = (j : Int)) := by
  by_cases hemp : ∃ k : Nat, b[k]? = some (none : Cell)
  · obtain ⟨i0, h0⟩ := hemp
    obtain ⟨j, hs1, -, hc1⟩ := strategic_correct b r₁ hlen i0 h0
    obtain ⟨j₂, hs2, -, hc2⟩ := strategic_correct b r₂ hlen i0 h0
    have hjj : j = j₂ := Option.some.inj (hs1.symm.trans hs2)
    have hr2 : getStrategicMove b r₂ = (j : Int) := by
      rw [hjj]
      exact hc2
    exact ⟨hc1.trans hr2.symm, fun i _ => ⟨j, hs1, hc1⟩⟩
  · push_neg at hemp
    have h1 := strategic_full b r₁ hemp
    have h2 := strategic_full b r₂ hemp
    exact ⟨h1.trans h2.symm, fun i hi => absurd hi (hemp i)⟩

/-- Witness for C9 on the empty board with two different random draws. -/
theorem hard_deterministic_witness :
    getHardMove ([none, none, none, none, none, none, none, none, none] : List Cell) 0 =
      getHardMove ([none, none, none, none, none, none, none, none, none] : List Cell) 5 ∧
    (∀ i0 : Nat, ([none, none, none, none, none, none, none, none, none] : List Cell)[i0]? =
        some (none : Cell) →
      ∃ j, strategicMoveSpec
          ([none, none, none, none, none, none, none, none, none] : List Cell) = some j ∧
        getHardMove
          ([none, none, none, none, none, none, none, none, none] : List Cell) 0 =
          (j : Int)) :=
  hard_deterministic _ 0 5 (by decide)

/-- **C10**: on a 9-cell board with an empty cell, `getStrategicMove` always
returns an in-range index whose cell is empty — the computer never overwrites
a filled cell. -/
theorem strategic_move_legal (b : List Cell) (r : Nat) (hlen : b.length = 9)
    (i0 : Nat) (h0 : b[i0]? = some (none : Cell)) :
    ∃ j : Nat, getStrategicMove b r = (j : Int) ∧ j < 9 ∧ b[j]? = some (none : Cell) := by
  obtain ⟨j, -, hempty, hcode⟩ := strategic_correct b r hlen i0 h0
  obtain ⟨hlt, -⟩ := List.getElem?_eq_some_iff.mp hempty
  exact ⟨j, hcode, by omega, hempty⟩

/-- Witness for C10: blocking the `X` top row takes the empty cell 2. -/
theorem strategic_move_legal_witness :
    ∃ j : Nat, getStrategicMove
        [some .X, some .X, none, none, none, none, none, none, none] 1 = (j : Int) ∧
      j < 9 ∧
      ([some .X, some .X, none, none, none, none, none, none,
        none] : List Cell)[j]? = some (none : Cell) :=
  strategic_move_legal _ 1 (by decide) 2 (by decide)

/-! ## C6: the deferred AI move after a reset -/

/-- A finished AI-mode game (X has won the top row) from which the player
resets while the 500 ms AI move is still pending. -/
def wonState : GameState :=
  { board := [some .X, some .X, some .X, some .O, some .O, none, none, none, none]
    currentPlayer := .X
    gameActive := false
    gameMode := .ai
    aiDifficulty := .hard
    scores := ⟨1, 0, 0⟩ }

/-- **C6 is violated by the code**: `makeAIMove` re-checks only `gameActive`,
not whose turn it is.  After `resetGame` the game is active again with `X` to
move on an empty board, yet the deferred `makeAIMove` still applies an `O`
move (center cell 4 at hard difficulty) — a deferred move applied to a board
that was reset in the interim, out of turn. -/
theorem deferred_move_applied_after_reset :
    wonState.gameActive = false ∧
    (resetGame wonState).gameActive = true ∧
    (resetGame wonState).currentPlayer = Player.X ∧
    (resetGame wonState).board = List.replicate 9 (none : Cell) ∧
    makeAIMove (resetGame wonState) true 0 ≠ resetGame wonState ∧
    (makeAIMove (resetGame wonState) true 0).board[4]? = some (some Player.O) ∧
    (makeAIMove (resetGame wonState) true 0).currentPlayer = Player.O := by
  decide

/-! ## C4: move count and turn parity -/

/-- Run a list of clicks, also counting how many were accepted. -/
def clickRun : GameState → List Nat → GameState × Nat
  | s, [] => (s, 0)
  | s, i :: rest =>
    match handleCellClick s i with
    | .ok s' => ((clickRun s' rest).1, (clickRun s' rest).2 + 1)
    | .error _ => clickRun s rest

/-- The number of non-empty cells of a board. -/
def filledCount (b : List Cell) : Nat :=
  List.countP (fun c => decide (c ≠ (none : Cell))) b

/-- Writing a mark into an empty cell raises the filled count by one. -/
theorem filledCount_set {b : List Cell} {i : Nat}
    (h : b[i]? = some (none : Cell)) (p : Player) :
    filledCount (b.set i (some p)) = filledCount b + 1 := by
  induction b generalizing i with
  | nil => simp at h
  | cons c t ih =>
    cases i with
    | zero =>
      have hc : c = (none : Cell) := by simpa using h
      subst hc
      simp [filledCount, List.countP_cons]
    | succ n =>
      have h' : t[n]? = some (none : Cell) := by simpa using h
      simp only [List.set_cons_succ, filledCount, List.countP_cons]
      rw [show List.countP (fun c => decide (c ≠ (none : Cell))) (t.set n (some p)) =
            filledCount (t.set n (some p)) from rfl,
        ih h']
      rw [show List.countP (fun c => decide (c ≠ (none : Cell))) t = filledCount t from rfl]
      omega

/-- `makeMove` writes exactly one cell of the board. -/
theorem makeMove_board (s : GameState) (i : Nat) (p : Player) :
    (makeMove s i p).board = s.board.set i (some p) := by
  unfold makeMove
  rcases checkGameEnd (s.board.set i (some p)) with _ | res
  · rfl
  · rcases res with ⟨q, l0⟩ | _ <;> rfl

/-- If the game is still active after `makeMove`, the turn has flipped. -/
theorem makeMove_active_flip (s : GameState) (i : Nat) (p : Player) :
    (makeMove s i p).gameActive = true →
      (makeMove s i p).currentPlayer = otherPlayer s.currentPlayer := by
  unfold makeMove
  rcases checkGameEnd (s.board.set i (some p)) with _ | res
  · intro _
    rfl
  · rcases res with ⟨q, l0⟩ | _
    · intro hfalse
      exact Bool.noConfusion hfalse
    · intro hfalse
      exact Bool.noConfusion hfalse

/-- Flipping the player flips the parity of the expected move count. -/
theorem otherPlayer_parity (k : Nat) :
    otherPlayer (if k % 2 = 0 then Player.X else Player.O) =
      (if (k + 1) % 2 = 0 then Player.X else Player.O) := by
  by_cases hk : k % 2 = 0
  · have h1 : (k + 1) % 2 = 1 := by omega
    simp [hk, h1, otherPlayer]
  · have h0 : (k + 1) % 2 = 0 := by omega
    simp [hk, h0, otherPlayer]

/-- Invariant of `clickRun`: the filled count grows exactly by the number of
accepted clicks, and while the game stays active the turn matches the parity
of that count. -/
theorem clickRun_invariant (ms : List Nat) :
    ∀ (s : GameState) (k : Nat),
      filledCount s.board = k →
      (s.gameActive = true → s.currentPlayer = (if k % 2 = 0 then Player.X else Player.O)) →
      filledCount (clickRun s ms).1.board = k + (clickRun s ms).2 ∧
      ((clickRun s ms).1.gameActive = true →
        (clickRun s ms).1.currentPlayer =
          (if (k + (clickRun s ms).2) % 2 = 0 then Player.X else Player.O)) := by
  induction ms with
  | nil =>
    intro s k hk ht
    simpa [clickRun] using ⟨hk, ht⟩
  | cons i rest ih =>
    intro s k hk ht
    rcases hcl : handleCellClick s i with e | s'
    · have hstep : clickRun s (i :: rest) = clickRun s rest := by
        simp [clickRun, hcl]
      rw [hstep]
      exact ih s k hk ht
    · obtain ⟨hg, hb, hs'⟩ := handleCellClick_ok hcl
      have hcount : filledCount s'.board = k + 1 := by
        rw [hs', makeMove_board, filledCount_set hb, hk]
      have hturn : s'.gameActive = true →
          s'.currentPlayer = (if (k + 1) % 2 = 0 then Player.X else Player.O) := by
        intro hga
        rw [hs'] at hga ⊢
        rw [makeMove_active_flip s i s.currentPlayer hga, ht hg, otherPlayer_parity]
      have hstep : clickRun s (i :: rest) =
          ((clickRun s' rest).1, (clickRun s' rest).2 + 1) := by
        simp [clickRun, hcl]
      rw [hstep]
      obtain ⟨h1, h2⟩ := ih s' (k + 1) hcount hturn
      refine ⟨h1.trans (by omega), ?_⟩
      intro hga
      have hpe : k + 1 + (clickRun s' rest).2 = k + ((clickRun s' rest).2 + 1) := by omega
      rw [← hpe]
      exact h2 hga

/-- **C4**: starting from a fresh game (where X moves first), after any click
sequence with the game still in progress, the number of filled cells equals
the number of accepted moves, and the turn is X exactly when that count is
even and O when it is odd; moreover every accepted move that leaves the game
in progress flips the turn. -/
theorem moves_filled_turn_invariant (mode : GameMode) (diff : Difficulty) (sc : Scores)
    (ms : List Nat) (s s' : GameState) (i : Nat)
    (hrun : (clickRun (initialState mode diff sc) ms).1.gameActive = true)
    (hacc : handleCellClick s i = .ok s') (hng : s'.gameActive = true) :
    filledCount (clickRun (initialState mode diff sc) ms).1.board =
      (clickRun (initialState mode diff sc) ms).2 ∧
    (clickRun (initialState mode diff sc) ms).1.currentPlayer =
      (if (clickRun (initialState mode diff sc) ms).2 % 2 = 0
        then Player.X else Player.O) ∧
    (initialState mode diff sc).currentPlayer = Player.X ∧
    s'.currentPlayer = otherPlayer s.currentPlayer := by
  obtain ⟨h1, h2⟩ :=
    clickRun_invariant ms (initialState mode diff sc) 0 rfl (fun _ => rfl)
  refine ⟨by simpa using h1, ?_, rfl, ?_⟩
  · have hp := h2 hrun
    simpa using hp
  · obtain ⟨hg, hb, rfl⟩ := handleCellClick_ok hacc
    exact makeMove_active_flip s i s.currentPlayer hng

/-- Witness for C4: the two-click run `[0, 1]` from a fresh pvp game, and the
first accepted click as the concrete accepted move. -/
theorem moves_filled_turn_invariant_witness :
    filledCount (clickRun (initialState .pvp .hard ⟨0, 0, 0⟩) [0, 1]).1.board =
      (clickRun (initialState .pvp .hard ⟨0, 0, 0⟩) [0, 1]).2 ∧
    (clickRun (initialState .pvp .hard ⟨0, 0, 0⟩) [0, 1]).1.currentPlayer =
      (if (clickRun (initialState .pvp .hard ⟨0, 0, 0⟩) [0, 1]).2 % 2 = 0
        then Player.X else Player.O) ∧
    (initialState .pvp .hard ⟨0, 0, 0⟩).currentPlayer = Player.X ∧
    (makeMove (initialState .pvp .hard ⟨0, 0, 0⟩) 0 Player.X).currentPlayer =
      otherPlayer (initialState .pvp .hard ⟨0, 0, 0⟩).currentPlayer :=
  moves_filled_turn_invariant .pvp .hard ⟨0, 0, 0⟩ [0, 1]
    (initialState .pvp .hard ⟨0, 0, 0⟩)
    (makeMove (initialState .pvp .hard ⟨0, 0, 0⟩) 0 Player.X) 0
    (by decide) rfl (by decide)
